import Mathlib

/-!
Verification development for the `popo` repository.

The repository's algorithmic core is `src/utils/project_structure.py`:
`get_project_structure` shells out to git, walks the working tree with
`build_markdown_tree`, and `class_to_xml` serializes the resulting
`RepoInfo` record into a pretty-printed XML string.  `src/agent/react_agent.py`
and `src/main.py` are thin glue over an external agent framework.

We shallowly embed that code here.  Filesystem trees become the inductive
`FSE`; the results of the shelled-out git commands become an explicit
`GitEnv` record (each command result is `Except err out`, mirroring
`subprocess.check_output` which raises `CalledProcessError` on nonzero exit);
the external agent framework (`langgraph`, the LLM client and the prompt
template loader, none of which live under `src/`) is abstracted into an
`AgentEnv` record of opaque behaviours.
-/

/-- A filesystem entry: a `Path` as `build_markdown_tree` sees it via
`path.is_dir()`, `path.name` and `path.iterdir()`.  Directory children are
listed in the order `iterdir` yields them. -/
inductive FSE where
  | file (name : String)
  | dir (name : String) (children : List FSE)
deriving Repr

/-- `path.name`. -/
def FSE.name : FSE → String
  | .file n => n
  | .dir n _ => n

/-- `path.is_dir()`. -/
def FSE.isDir : FSE → Bool
  | .file _ => false
  | .dir _ _ => true

/-- The set `ignore_dirs = {'.git', '__pycache__', '.idea', '.vscode', 'node_modules'}`. -/
def ignore_dirs : List String :=
  [".git", "__pycache__", ".idea", ".vscode", "node_modules"]

def sizeOf_filter_le (p : FSE → Bool) (l : List FSE) :
    sizeOf (l.filter p) ≤ sizeOf l := by
  induction l with
  | nil => simp [List.filter]
  | cons a l ih =>
    simp only [List.filter]
    cases p a <;> simp <;> omega

mutual

/-- `build_markdown_tree(path, prefix, is_last)` from
`src/utils/project_structure.py`, lines 82–123.  The Python function mutates
the enclosing `nonlocal total_files, total_dirs` counters; we thread them
explicitly and return the built string together with the updated counters.
`build_children` embeds the `for i, child in enumerate(children)` loop, where
`is_last_child = (i == len(children) - 1)`. -/
def build_markdown_tree (path : FSE) (pfx : String) (is_last : Bool)
    (total_files total_dirs : Nat) : String × Nat × Nat :=
  if ignore_dirs.contains path.name then ("", total_files, total_dirs)
  else
    match path with
    | .file n =>
      let item_str := n
      let line :=
        if pfx = "" then "- " ++ item_str ++ "\n"
        else pfx ++ (if is_last then "└── " else "├── ") ++ item_str ++ "\n"
      (line, total_files + 1, total_dirs)
    | .dir n children =>
      let item_str := n ++ "/"
      let line :=
        if pfx = "" then "- " ++ item_str ++ "\n"
        else pfx ++ (if is_last then "└── " else "├── ") ++ item_str ++ "\n"
      let filtered := children.filter (fun c => !ignore_dirs.contains c.name)
      let new_pfx := if is_last then pfx ++ "    " else pfx ++ "│   "
      let r := build_children filtered new_pfx total_files (total_dirs + 1)
      (line ++ r.1, r.2)
termination_by sizeOf path
decreasing_by
  simp_wf
  rename_i n children
  have h := sizeOf_filter_le (fun c => !decide (c.name ∈ ignore_dirs)) children
  omega

/-- The child loop of `build_markdown_tree`: serializes `cs` in order,
passing `is_last = true` only for the final element. -/
def build_children (cs : List FSE) (pfx : String)
    (total_files total_dirs : Nat) : String × Nat × Nat :=
  match cs with
  | [] => ("", total_files, total_dirs)
  | [c] => build_markdown_tree c pfx true total_files total_dirs
  | c :: c2 :: rest =>
    let r := build_markdown_tree c pfx false total_files total_dirs
    let r2 := build_children (c2 :: rest) pfx r.2.1 r.2.2
    (r.1 ++ r2.1, r2.2)
termination_by sizeOf cs

end

/-! ## Spec-side definitions

The following definitions transcribe the *claims'* wording (not the code);
the theorems below compare `build_markdown_tree` against them. -/

/-- Spec wording (C1): a non-root entry is rendered as its inherited prefix,
then the connector `└── ` if it is the last non-ignored child of its parent
and `├── ` otherwise, then its name with a trailing `/` appended exactly when
it is a directory. -/
def spec_line (e : FSE) (pfx : String) (is_last : Bool) : String :=
  pfx ++ (if is_last then "└── " else "├── ") ++ e.name ++
    (if e.isDir then "/" else "") ++ "\n"

/-- Spec wording (C1): the prefix passed to a node's children is the node's
own prefix extended with four spaces when the node is the last child and with
`│   ` otherwise. -/
def spec_child_pfx (pfx : String) (is_last : Bool) : String :=
  pfx ++ (if is_last then "    " else "│   ")

mutual

/-- Spec wording (C1), non-root entries: the entry's line followed by the
renderings of its non-ignored children, the last of which gets the
`is_last` connector. -/
def spec_render (e : FSE) (pfx : String) (is_last : Bool) : String :=
  spec_line e pfx is_last ++
    match e with
    | .file _ => ""
    | .dir _ children =>
      spec_render_children (children.filter (fun c => !ignore_dirs.contains c.name))
        (spec_child_pfx pfx is_last)
termination_by sizeOf e
decreasing_by
  simp_wf
  rename_i n children
  have h := sizeOf_filter_le (fun c => !decide (c.name ∈ ignore_dirs)) children
  omega

/-- Spec wording (C1): children rendered in order; only the last one is
rendered with `is_last = true`. -/
def spec_render_children (cs : List FSE) (pfx : String) : String :=
  match cs with
  | [] => ""
  | [c] => spec_render c pfx true
  | c :: c2 :: rest => spec_render c pfx false ++ spec_render_children (c2 :: rest) pfx
termination_by sizeOf cs

end

/-- Spec wording (C1): the root is rendered as the line `- <name>/`, and its
children inherit the root's (empty) prefix extended as for a last child. -/
def spec_render_root (root : FSE) : String :=
  "- " ++ root.name ++ "/" ++ "\n" ++
    match root with
    | .file _ => ""
    | .dir _ children =>
      spec_render_children (children.filter (fun c => !ignore_dirs.contains c.name))
        (spec_child_pfx "" true)

/-- Concatenation of a list of strings, in order. -/
def str_concat : List String → String
  | [] => ""
  | s :: rest => s ++ str_concat rest

/-- Spec wording (C2): the list of the serializations of the children, each
produced by `build_markdown_tree` itself with the counters threaded through,
only the last child receiving `is_last = true`. -/
def child_render_list (cs : List FSE) (pfx : String) (f d : Nat) : List String :=
  match cs with
  | [] => []
  | [c] => [(build_markdown_tree c pfx true f d).1]
  | c :: c2 :: rest =>
    let r := build_markdown_tree c pfx false f d
    r.1 :: child_render_list (c2 :: rest) pfx r.2.1 r.2.2

mutual

/-- Spec wording (C3): the entries visited by the traversal, in traversal
order; an entry whose name is in the ignore set is excluded together with
its entire subtree. -/
def visible_entries (e : FSE) : List FSE :=
  if ignore_dirs.contains e.name then []
  else
    match e with
    | .file n => [.file n]
    | .dir n children => .dir n children :: visible_entries_list children
termination_by sizeOf e

/-- Spec wording (C3): visited entries of a list of siblings, in order. -/
def visible_entries_list (cs : List FSE) : List FSE :=
  match cs with
  | [] => []
  | c :: rest => visible_entries c ++ visible_entries_list rest
termination_by sizeOf cs

end

/-- Spec wording (C3): the number of non-directory entries visited. -/
def spec_total_files (e : FSE) : Nat :=
  ((visible_entries e).filter (fun x => !x.isDir)).length

/-- Spec wording (C3): the number of directories visited (the root, when not
ignored, included). -/
def spec_total_dirs (e : FSE) : Nat :=
  ((visible_entries e).filter (fun x => x.isDir)).length

/-- The number of newline characters in a string: since every line the
builder emits is newline-terminated, this is the line count of C6. -/
def countNL (s : String) : Nat := s.data.count '\n'

mutual

/-- Spec wording (amended C6): no entry name in the tree contains a newline
character. -/
def names_nl_free (e : FSE) : Bool :=
  match e with
  | .file n => countNL n == 0
  | .dir n ch => countNL n == 0 && names_nl_free_list ch
termination_by sizeOf e

/-- `names_nl_free` over a list of siblings. -/
def names_nl_free_list (cs : List FSE) : Bool :=
  match cs with
  | [] => true
  | c :: rest => names_nl_free c && names_nl_free_list rest
termination_by sizeOf cs

end

/-! ## Induction helper -/

def FSE.induction_size {motive : FSE → Prop}
    (step : ∀ e, (∀ c : FSE, sizeOf c < sizeOf e → motive c) → motive e) :
    ∀ e, motive e :=
  fun e => step e (fun c h_lt => FSE.induction_size step c)
termination_by e => sizeOf e
decreasing_by exact h_lt

/-! ## Python string primitives -/

/-- The characters Python's `str.strip()` and `str.split()` (no arguments)
treat as whitespace, restricted to ASCII. -/
def isPySpace (c : Char) : Bool :=
  c = ' ' || c = '\t' || c = '\n' || c = '\r' || c = '\x0b' || c = '\x0c'

/-- Python `str.strip()`: remove leading and trailing whitespace. -/
def pyStrip (s : String) : String :=
  String.mk (((s.data.dropWhile isPySpace).reverse.dropWhile isPySpace).reverse)

/-- Split a character list at every separator character chosen by `p`,
keeping empty pieces, as Python's `str.split(sep)` does. -/
def splitListP (p : Char → Bool) : List Char → List (List Char)
  | [] => [[]]
  | c :: rest =>
    let r := splitListP p rest
    if p c then [] :: r
    else
      match r with
      | [] => [[c]]
      | g :: gs => (c :: g) :: gs

/-- Python `s.split('\n')`. -/
def pySplitLines (s : String) : List String :=
  (splitListP (fun c => c = '\n') s.data).map String.mk

/-- Python `str.split()` with no arguments: split on whitespace, dropping
empty pieces. -/
def pySplitWs (s : String) : List String :=
  ((splitListP isPySpace s.data).map String.mk).filter (fun p => p ≠ "")

/-- `pat` is a leading segment of `s`. -/
def listStarts : List Char → List Char → Bool
  | [], _ => true
  | _ :: _, [] => false
  | a :: as, b :: bs => a == b && listStarts as bs

/-- `sub` occurs contiguously inside `s`. -/
def listHasSub (sub : List Char) : List Char → Bool
  | [] => listStarts sub []
  | c :: rest => listStarts sub (c :: rest) || listHasSub sub rest

/-- Python `line.startswith(pat)`. -/
def pyStartsWith (s pat : String) : Bool :=
  listStarts pat.data s.data

/-- Python `sub in s`. -/
def pyInStr (sub s : String) : Bool :=
  listHasSub sub.data s.data

/-! ## `get_project_structure` -/

/-- The `RepoInfo` dataclass, fields in declaration order. -/
structure RepoInfo where
  currentDirectory : String
  rootPath : String
  repoURL : String
  repoPath : String
  Branch : String
  status : String
  recentCommit : List String
  directoryStructure : String
  hasReadme : Bool
  hasMakefile : Bool
  totalFiles : Nat
  totalDirectories : Nat
deriving Repr, DecidableEq

/-- The results the five shelled-out git commands and the working tree would
give: `Except.error out` models `subprocess.CalledProcessError` (nonzero exit
status) carrying the captured output `e.output`; `Except.ok out` is the
command's captured stdout.  `rootTree` is the directory tree rooted at the
path `git rev-parse --show-toplevel` printed, as `Path.iterdir` would
enumerate it. -/
structure GitEnv where
  cwd : String
  revParseToplevel : Except String String
  remoteV : Except String String
  abbrevRef : Except String String
  statusCmd : Except String String
  logCmd : Except String String
  rootTree : FSE

/-- The `repo_url` loop: take the first line that starts with `origin` and
contains `fetch`, and return its second whitespace-separated token;
`line.split()[1]` raises `IndexError` when that token does not exist, and no
matching line leaves `repo_url = ""`. -/
def findOriginUrl : List String → Except String String
  | [] => .ok ""
  | line :: rest =>
    if pyStartsWith line "origin" && pyInStr "fetch" line then
      match (pySplitWs line)[1]? with
      | some u => .ok u
      | none => .error "list index out of range"
    else findOriginUrl rest

/-- `root_path_obj.joinpath(f).exists()`: some entry (file or directory)
named `f` sits directly in the root directory. -/
def exists_in_root (root : FSE) (f : String) : Bool :=
  match root with
  | .file _ => false
  | .dir _ ch => ch.any (fun c => c.name == f)

/-- `get_project_structure()` from `src/utils/project_structure.py`: runs the
five git commands in order, aborting with a printed message on the first
`CalledProcessError` (or on the `IndexError` the URL parse can raise, caught
by the generic `except Exception`), then walks the tree and assembles the
`RepoInfo`.  Returns the `Optional[RepoInfo]` together with the list of
printed messages. -/
def get_project_structure (env : GitEnv) : Option RepoInfo × List String :=
  match env.revParseToplevel with
  | .error e => (none, ["Git命令执行错误: " ++ e])
  | .ok out1 =>
    let root_path := pyStrip out1
    match env.remoteV with
    | .error e => (none, ["Git命令执行错误: " ++ e])
    | .ok out2 =>
      let remote_info := pyStrip out2
      match findOriginUrl (pySplitLines remote_info) with
      | .error msg => (none, ["发生错误: " ++ msg])
      | .ok repo_url =>
        match env.abbrevRef with
        | .error e => (none, ["Git命令执行错误: " ++ e])
        | .ok out3 =>
          let current_branch := pyStrip out3
          match env.statusCmd with
          | .error e => (none, ["Git命令执行错误: " ++ e])
          | .ok out4 =>
            let status_info := pyStrip out4
            match env.logCmd with
            | .error e => (none, ["Git命令执行错误: " ++ e])
            | .ok out5 =>
              let recent_commit := pySplitLines (pyStrip out5)
              let r := build_markdown_tree env.rootTree "" true 0 0
              let has_readme := ["README", "README.md", "readme", "readme.md"].any
                (fun f => exists_in_root env.rootTree f)
              let has_makefile := exists_in_root env.rootTree "Makefile" ||
                exists_in_root env.rootTree "makefile"
              (some ⟨env.cwd, root_path, repo_url, root_path, current_branch,
                status_info, recent_commit, r.1, has_readme, has_makefile,
                r.2.1, r.2.2⟩, [])

/-! ## `class_to_xml` and `get_project_structure_xml` -/

/-- The Python values a `RepoInfo` attribute can hold. -/
inductive PyValue where
  | str (s : String)
  | int (n : Nat)
  | bool (b : Bool)
  | list (items : List PyValue)

/-- An XML element tree as `xml.etree.ElementTree` builds it: an element with
a tag and children, where a text payload is a child node. -/
inductive XmlNode where
  | elem (tag : String) (children : List XmlNode)
  | text (s : String)

mutual

/-- The recursive `build_xml(element, name, value)` helper: basic values
become a subelement with a text payload (`str(value).lower()` for booleans,
`str(value)` otherwise); lists become a subelement with one `<item>` child
per entry, in order. -/
def build_xml (name : String) : PyValue → XmlNode
  | .str s => .elem name [.text s]
  | .int n => .elem name [.text (toString n)]
  | .bool b => .elem name [.text (if b then "true" else "false")]
  | .list items => .elem name (build_xml_items items)
termination_by v => sizeOf v

/-- `build_xml` applied to each list entry under the `<item>` tag. -/
def build_xml_items : List PyValue → List XmlNode
  | [] => []
  | v :: rest => build_xml "item" v :: build_xml_items rest
termination_by vs => sizeOf vs

end

/-- Python `str.lower()` (ASCII). -/
def pyLower (s : String) : String := String.mk (s.data.map Char.toLower)

/-- `attr_name.replace("_", "-").lower()`: the replaced pattern is the single
character `_`, so the replacement is character-wise. -/
def safe_name (s : String) : String :=
  pyLower (String.mk (s.data.map (fun c => if c = '_' then '-' else c)))

/-- `obj.__dict__.items()` for a `RepoInfo` instance: attribute names and
values in dataclass declaration order. -/
def repoInfo_attrs (r : RepoInfo) : List (String × PyValue) :=
  [("currentDirectory", .str r.currentDirectory),
   ("rootPath", .str r.rootPath),
   ("repoURL", .str r.repoURL),
   ("repoPath", .str r.repoPath),
   ("Branch", .str r.Branch),
   ("status", .str r.status),
   ("recentCommit", .list (r.recentCommit.map PyValue.str)),
   ("directoryStructure", .str r.directoryStructure),
   ("hasReadme", .bool r.hasReadme),
   ("hasMakefile", .bool r.hasMakefile),
   ("totalFiles", .int r.totalFiles),
   ("totalDirectories", .int r.totalDirectories)]

/-- The root element `class_to_xml` builds for a `RepoInfo`: tag
`obj.__class__.__name__.lower()`, one subelement per attribute. -/
def class_to_xml_root (r : RepoInfo) : XmlNode :=
  .elem (pyLower "RepoInfo")
    ((repoInfo_attrs r).map (fun a => build_xml (safe_name a.1) a.2))

/-- `xml.dom.minidom`'s `_write_data` escaping. -/
def xmlEscapeText (s : String) : String :=
  (((s.replace "&" "&amp;").replace "<" "&lt;").replace "\"" "&quot;").replace ">" "&gt;"

mutual

/-- `minidom`'s `writexml` with `indent="  "`, `newl="\n"`, as `toprettyxml`
calls it on the parse of `tostring(root)`: a childless element (which is also
what an empty text payload round-trips to) is written self-closing; an
element whose single child is a text node is written inline; otherwise the
children are written each on its own line, indented one level deeper. -/
def writeXml (ind : String) : XmlNode → String
  | .text s => ind ++ xmlEscapeText s ++ "\n"
  | .elem tag [] => ind ++ "<" ++ tag ++ "/>" ++ "\n"
  | .elem tag [.text s] =>
    if s = "" then ind ++ "<" ++ tag ++ "/>" ++ "\n"
    else ind ++ "<" ++ tag ++ ">" ++ xmlEscapeText s ++ "</" ++ tag ++ ">" ++ "\n"
  | .elem tag children =>
    ind ++ "<" ++ tag ++ ">" ++ "\n" ++ writeXml_list (ind ++ "  ") children ++
      ind ++ "</" ++ tag ++ ">" ++ "\n"
termination_by x => sizeOf x

/-- `writexml` over a list of sibling nodes. -/
def writeXml_list (ind : String) : List XmlNode → String
  | [] => ""
  | x :: rest => writeXml ind x ++ writeXml_list ind rest
termination_by xs => sizeOf xs

end

/-- `class_to_xml(obj)` for a `RepoInfo`: the XML declaration `toprettyxml`
emits, then the pretty-printed root element. -/
def class_to_xml (r : RepoInfo) : String :=
  "<?xml version=\"1.0\" ?>" ++ "\n" ++ writeXml "" (class_to_xml_root r)

/-- `get_project_structure_xml()`: the XML string when introspection
succeeded, `None` otherwise. -/
def get_project_structure_xml (env : GitEnv) : Option String :=
  match (get_project_structure env).1 with
  | some repo_info => some (class_to_xml repo_info)
  | none => none

/-! ## Failure characterization -/

/-- A shelled-out command raised `subprocess.CalledProcessError`. -/
def cmd_failed : Except String String → Bool
  | .error _ => true
  | .ok _ => false

/-- The `repo_url` parse raises `IndexError` (`line.split()[1]` on a line
with fewer than two tokens), caught by the broad `except Exception`. -/
def origin_parse_failed (env : GitEnv) : Bool :=
  match env.remoteV with
  | .error _ => false
  | .ok out2 => cmd_failed (findOriginUrl (pySplitLines (pyStrip out2)))

/-- Some step of the introspection raises: a git command exits nonzero, or
the URL parse raises `IndexError`. -/
def introspection_failed (env : GitEnv) : Bool :=
  cmd_failed env.revParseToplevel || cmd_failed env.remoteV || origin_parse_failed env ||
    cmd_failed env.abbrevRef || cmd_failed env.statusCmd || cmd_failed env.logCmd

/-- The entries directly inside the repository root. -/
def root_children : FSE → List FSE
  | .file _ => []
  | .dir _ ch => ch

/-! ## The agent glue (`src/agent/react_agent.py`, `src/main.py`) -/

/-- A chat message as `main.py` builds it. -/
structure Message where
  role : String
  content : String
deriving Repr, DecidableEq

/-- The agent object `create_react_agent` returns: it records the
construction arguments, and `stream` yields the chunks of the agent's
streamed response to a message list, in order. -/
structure Agent where
  model : String
  tools : List String
  prompt : String
  name : String
  stream : List Message → List String

/-- The external pieces `src/agent/react_agent.py` imports from outside
`src/`: the LLM client object `llm_model` (from `llm_model.qwen`), the
prompt loader `load_prompt_template` (from `prompt.load_template`), and the
streaming behaviour of the third-party framework's ReAct agent. -/
structure AgentEnv where
  gitEnv : GitEnv
  llm_model : String
  load_prompt_template : String → Option String → String
  react_stream : String → List String → String → List Message → List String

/-- Modelled from the spec: `langgraph.prebuilt.create_react_agent` is the
third-party agent-orchestration framework's constructor, absent from `src/`;
the spec treats it as opaque glue ("the framework itself is the product being
wrapped").  We model it as capturing its arguments, with the streamed
response supplied by the environment. -/
def create_react_agent (env : AgentEnv) (model : String) (tools : List String)
    (prompt : String) (name : String) : Agent :=
  ⟨model, tools, prompt, name, env.react_stream model tools prompt⟩

/-- `create_agent()` from `src/agent/react_agent.py`: loads the `code_sys`
prompt template with the repository XML as context and constructs the ReAct
agent named `popo` with an empty tool list. -/
def create_agent (env : AgentEnv) : Agent :=
  let chat_model := env.llm_model
  let prompt := env.load_prompt_template "code_sys" (get_project_structure_xml env.gitEnv)
  let tools : List String := []
  create_react_agent env chat_model tools prompt "popo"

/-- `query(question)` from `src/main.py`: creates the agent, streams the
response to the single user message, and prints each chunk; the returned
list is what gets printed, in stream order. -/
def query (env : AgentEnv) (question : String) : List String :=
  let react_agent := create_agent env
  let result := react_agent.stream [⟨"user", question⟩]
  result

/-! ## Concrete environments -/

/-- A small working tree: a root with a file, an ignored `.git` subtree, a
nested directory and a README. -/
def tree_ok : FSE :=
  .dir "popo" [.file "main.py", .dir ".git" [.file "HEAD"],
    .dir "utils" [.file "a.py", .file "b.py"], .file "README.md"]

/-- A `GitEnv` in which every git command succeeds. -/
def env_ok : GitEnv :=
  ⟨"/home/u/popo", .ok "/home/u/popo\n",
   .ok "origin\tgit@h:popo.git (fetch)\norigin\tgit@h:popo.git (push)",
   .ok "main\n", .ok "On branch main", .ok "h1\nalice\na@x\nMon 1\nmsg", tree_ok⟩

/-- The `RepoInfo` the introspection of `env_ok` produces. -/
def repo_ok : RepoInfo :=
  ⟨"/home/u/popo", "/home/u/popo", "git@h:popo.git", "/home/u/popo", "main",
   "On branch main", ["h1", "alice", "a@x", "Mon 1", "msg"],
   "- popo/\n    ├── main.py\n    ├── utils/\n    │   ├── a.py\n    │   └── b.py\n    └── README.md\n",
   true, false, 4, 2⟩

/-- A `GitEnv` in which the very first git command exits nonzero. -/
def env_fail : GitEnv :=
  ⟨"/c", .error "fatal: not a git repository", .ok "", .ok "", .ok "", .ok "", .file "x"⟩

/-- A working tree containing a file whose name contains a newline. -/
def tree_nl : FSE := .dir "r" [.file "a\nb"]

/-- A successful `GitEnv` over `tree_nl`. -/
def env_nl : GitEnv := ⟨"/c", .ok "/r", .ok "", .ok "m", .ok "s", .ok "l", tree_nl⟩

/-- The `RepoInfo` produced over `tree_nl`. -/
def repo_nl : RepoInfo :=
  ⟨"/c", "/r", "", "/r", "m", "s", ["l"], "- r/\n    └── a\nb\n", false, false, 1, 1⟩

/-- A working tree whose root contains a *directory* named `README`. -/
def tree_dirreadme : FSE := .dir "r" [.dir "README" []]

/-- A successful `GitEnv` over `tree_dirreadme`. -/
def env_dirreadme : GitEnv :=
  ⟨"/c", .ok "/r", .ok "", .ok "m", .ok "s", .ok "l", tree_dirreadme⟩

/-- The `RepoInfo` produced over `tree_dirreadme`. -/
def repo_dirreadme : RepoInfo :=
  ⟨"/c", "/r", "", "/r", "m", "s", ["l"], "- r/\n    └── README/\n", true, false, 0, 2⟩

/-! ## Unfolding lemmas -/

theorem build_eq_file (n : String) (pfx : String) (l : Bool) (f d : Nat) :
    build_markdown_tree (.file n) pfx l f d =
      if ignore_dirs.contains n then ("", f, d)
      else ((if pfx = "" then "- " ++ n ++ "\n"
             else pfx ++ (if l then "└── " else "├── ") ++ n ++ "\n"), f + 1, d) := by
  unfold build_markdown_tree
  rfl

theorem build_eq_dir (n : String) (ch : List FSE) (pfx : String) (l : Bool) (f d : Nat) :
    build_markdown_tree (.dir n ch) pfx l f d =
      if ignore_dirs.contains n then ("", f, d)
      else
        ((if pfx = "" then "- " ++ (n ++ "/") ++ "\n"
          else pfx ++ (if l then "└── " else "├── ") ++ (n ++ "/") ++ "\n") ++
          (build_children (ch.filter (fun c => !ignore_dirs.contains c.name))
            (if l then pfx ++ "    " else pfx ++ "│   ") f (d + 1)).1,
         (build_children (ch.filter (fun c => !ignore_dirs.contains c.name))
            (if l then pfx ++ "    " else pfx ++ "│   ") f (d + 1)).2) := by
  unfold build_markdown_tree
  rfl

theorem sizeOf_lt_dir {c : FSE} {ch : List FSE} (h : c ∈ ch) (n : String) :
    sizeOf c < sizeOf (FSE.dir n ch) := by
  have h1 := List.sizeOf_lt_of_mem h
  have h2 : sizeOf (FSE.dir n ch) = 1 + sizeOf n + sizeOf ch := by simp
  omega

theorem sizeOf_lt_dir_filter {c : FSE} {ch : List FSE} {p : FSE → Bool}
    (h : c ∈ ch.filter p) (n : String) :
    sizeOf c < sizeOf (FSE.dir n ch) :=
  sizeOf_lt_dir (List.mem_of_mem_filter h) n

theorem visible_entries_eq_nil {e : FSE} (h : ignore_dirs.contains e.name) :
    visible_entries e = [] := by
  unfold visible_entries
  rw [if_pos h]

theorem visible_entries_list_cons (c : FSE) (rest : List FSE) :
    visible_entries_list (c :: rest) = visible_entries c ++ visible_entries_list rest := by
  simp [visible_entries_list]

theorem visible_entries_list_filter (cs : List FSE) :
    visible_entries_list (cs.filter (fun c => !ignore_dirs.contains c.name)) =
      visible_entries_list cs := by
  induction cs with
  | nil => rfl
  | cons c rest ih =>
    by_cases h : c.name ∈ ignore_dirs
    · have hc : ignore_dirs.contains c.name := by simpa using h
      simp [List.filter_cons, h, visible_entries_list_cons, visible_entries_eq_nil hc]
      simpa using ih
    · simp [List.filter_cons, h, visible_entries_list_cons]
      simpa using ih

theorem visible_entries_file (n : String) (h : ¬ ignore_dirs.contains n) :
    visible_entries (.file n) = [.file n] := by
  unfold visible_entries
  rw [if_neg (by simpa [FSE.name] using h)]

theorem visible_entries_dir (n : String) (ch : List FSE) (h : ¬ ignore_dirs.contains n) :
    visible_entries (.dir n ch) = .dir n ch :: visible_entries_list ch := by
  unfold visible_entries
  rw [if_neg (by simpa [FSE.name] using h)]

theorem build_children_nil (pfx : String) (f d : Nat) :
    build_children [] pfx f d = ("", f, d) := by
  rw [build_children.eq_def]

theorem build_children_single (c : FSE) (pfx : String) (f d : Nat) :
    build_children [c] pfx f d = build_markdown_tree c pfx true f d := by
  rw [build_children.eq_def]

theorem build_children_cons (c c2 : FSE) (rest : List FSE) (pfx : String) (f d : Nat) :
    build_children (c :: c2 :: rest) pfx f d =
      ((build_markdown_tree c pfx false f d).1 ++
        (build_children (c2 :: rest) pfx
          (build_markdown_tree c pfx false f d).2.1
          (build_markdown_tree c pfx false f d).2.2).1,
       (build_children (c2 :: rest) pfx
          (build_markdown_tree c pfx false f d).2.1
          (build_markdown_tree c pfx false f d).2.2).2) := by
  rw [build_children.eq_def]

/-! ## Counters -/

theorem build_children_counts (cs : List FSE)
    (IH : ∀ c ∈ cs, ∀ pfx is_last f d,
      (build_markdown_tree c pfx is_last f d).2 =
        (f + spec_total_files c, d + spec_total_dirs c)) :
    ∀ pfx f d, (build_children cs pfx f d).2 =
      (f + ((visible_entries_list cs).filter (fun x => !x.isDir)).length,
       d + ((visible_entries_list cs).filter (fun x => x.isDir)).length) := by
  induction cs with
  | nil =>
    intro pfx f d
    simp [build_children, visible_entries_list]
  | cons c rest ih =>
    intro pfx f d
    cases rest with
    | nil =>
      rw [build_children_single]
      rw [IH c (by simp)]
      simp [visible_entries_list_cons, visible_entries_list, spec_total_files, spec_total_dirs]
    | cons c2 rest2 =>
      rw [build_children_cons]
      rw [IH c (by simp)]
      rw [ih (fun x hx => IH x (List.mem_cons_of_mem _ hx))]
      simp [visible_entries_list_cons, spec_total_files, spec_total_dirs]
      constructor <;> omega

theorem build_counts : ∀ e : FSE, ∀ (pfx : String) (is_last : Bool) (f d : Nat),
    (build_markdown_tree e pfx is_last f d).2 =
      (f + spec_total_files e, d + spec_total_dirs e) := by
  apply FSE.induction_size
  intro e IH pfx is_last f d
  cases e with
  | file n =>
    rw [build_eq_file]
    by_cases h : ignore_dirs.contains n
    · rw [if_pos h]
      simp [spec_total_files, spec_total_dirs,
        visible_entries_eq_nil (show ignore_dirs.contains (FSE.file n).name from h)]
    · rw [if_neg h]
      simp [spec_total_files, spec_total_dirs, visible_entries_file n h, FSE.isDir]
  | dir n ch =>
    rw [build_eq_dir]
    by_cases h : ignore_dirs.contains n
    · rw [if_pos h]
      simp [spec_total_files, spec_total_dirs,
        visible_entries_eq_nil (show ignore_dirs.contains (FSE.dir n ch).name from h)]
    · rw [if_neg h]
      rw [build_children_counts _
        (fun c hc => IH c (sizeOf_lt_dir_filter hc n))]
      rw [visible_entries_list_filter]
      simp [spec_total_files, spec_total_dirs, visible_entries_dir n ch h, FSE.isDir,
        List.filter_cons]
      omega

/-! ## Rendering -/

theorem spec_render_file (n : String) (pfx : String) (is_last : Bool) :
    spec_render (.file n) pfx is_last = spec_line (.file n) pfx is_last := by
  rw [spec_render.eq_def]
  simp

theorem spec_render_dir (n : String) (ch : List FSE) (pfx : String) (is_last : Bool) :
    spec_render (.dir n ch) pfx is_last =
      spec_line (.dir n ch) pfx is_last ++
        spec_render_children (ch.filter (fun c => !ignore_dirs.contains c.name))
          (spec_child_pfx pfx is_last) := by
  rw [spec_render.eq_def]

theorem str_append_ne_empty (a b : String) (hb : b.length ≠ 0) : a ++ b ≠ "" := by
  intro h
  have hl := congrArg String.length h
  simp [String.length_append] at hl
  omega

theorem build_children_render (cs : List FSE)
    (IH : ∀ c ∈ cs, ∀ (pfx : String) (is_last : Bool) (f d : Nat),
      ¬ ignore_dirs.contains c.name → pfx ≠ "" →
      (build_markdown_tree c pfx is_last f d).1 = spec_render c pfx is_last)
    (hall : ∀ c ∈ cs, ¬ ignore_dirs.contains c.name) :
    ∀ (pfx : String) (f d : Nat), pfx ≠ "" →
      (build_children cs pfx f d).1 = spec_render_children cs pfx := by
  induction cs with
  | nil =>
    intro pfx f d hp
    rw [build_children_nil, spec_render_children.eq_def]
  | cons c rest ih =>
    intro pfx f d hp
    cases rest with
    | nil =>
      rw [build_children_single, spec_render_children.eq_def]
      exact IH c (by simp) pfx true f d (hall c (by simp)) hp
    | cons c2 rest2 =>
      rw [build_children_cons]
      rw [show spec_render_children (c :: c2 :: rest2) pfx =
          spec_render c pfx false ++ spec_render_children (c2 :: rest2) pfx from by
        rw [spec_render_children.eq_def]]
      rw [IH c (by simp) pfx false f d (hall c (by simp)) hp]
      rw [ih (fun x hx => IH x (by simp [hx])) (fun x hx => hall x (by simp [hx])) pfx _ _ hp]

theorem build_render : ∀ e : FSE, ∀ (pfx : String) (is_last : Bool) (f d : Nat),
    ¬ ignore_dirs.contains e.name → pfx ≠ "" →
    (build_markdown_tree e pfx is_last f d).1 = spec_render e pfx is_last := by
  apply FSE.induction_size
  intro e IH pfx is_last f d hni hpfx
  cases e with
  | file n =>
    have hni' : ¬ ignore_dirs.contains n = true := hni
    rw [build_eq_file, if_neg hni', spec_render_file]
    simp [spec_line, FSE.name, FSE.isDir, if_neg hpfx]
  | dir n ch =>
    have hni' : ¬ ignore_dirs.contains n = true := hni
    rw [build_eq_dir, if_neg hni', spec_render_dir]
    rw [if_neg hpfx]
    have hchild : (if is_last then pfx ++ "    " else pfx ++ "│   ") =
        spec_child_pfx pfx is_last := by
      cases is_last <;> simp [spec_child_pfx]
    rw [hchild]
    rw [build_children_render _
      (fun c hc => IH c (sizeOf_lt_dir_filter hc n))
      (fun c hc => by
        have := List.of_mem_filter hc
        simpa using this)
      (spec_child_pfx pfx is_last) f (d + 1)
      (by
        apply str_append_ne_empty
        cases is_last <;> decide)]
    simp [spec_line, FSE.name, FSE.isDir, String.append_assoc]

theorem build_render_root (n : String) (ch : List FSE) (f d : Nat)
    (h : ¬ ignore_dirs.contains n) :
    (build_markdown_tree (.dir n ch) "" true f d).1 = spec_render_root (.dir n ch) := by
  have h' : ¬ ignore_dirs.contains n = true := h
  rw [build_eq_dir, if_neg h']
  simp only [spec_render_root]
  rw [build_children_render _
    (fun c hc => build_render c)
    (fun c hc => by
      have := List.of_mem_filter hc
      simpa using this)
    _ f (d + 1)
    (by
      show ("" ++ "    ") ≠ ""
      decide)]
  have : spec_child_pfx "" true = "" ++ "    " := rfl
  rw [this]
  simp [String.append_assoc, FSE.name]

theorem build_children_join (cs : List FSE) :
    ∀ (pfx : String) (f d : Nat),
      (build_children cs pfx f d).1 = str_concat (child_render_list cs pfx f d) := by
  induction cs with
  | nil => intro pfx f d; rw [build_children_nil]; rfl
  | cons c rest ih =>
    intro pfx f d
    cases rest with
    | nil =>
      rw [build_children_single]
      simp [child_render_list, str_concat]
    | cons c2 rest2 =>
      rw [build_children_cons]
      simp only [child_render_list, str_concat]
      rw [ih]

/-! ## Newline counting -/

theorem countNL_append (a b : String) : countNL (a ++ b) = countNL a + countNL b := by
  simp [countNL, String.data_append, List.count_append]

theorem names_nl_free_file (n : String) :
    names_nl_free (.file n) = (countNL n == 0) := by
  rw [names_nl_free.eq_def]

theorem names_nl_free_dir (n : String) (ch : List FSE) :
    names_nl_free (.dir n ch) = (countNL n == 0 && names_nl_free_list ch) := by
  rw [names_nl_free.eq_def]

theorem names_nl_free_list_mem {cs : List FSE} {c : FSE}
    (h : names_nl_free_list cs) (hm : c ∈ cs) : names_nl_free c := by
  induction cs with
  | nil => cases hm
  | cons a rest ih =>
    rw [names_nl_free_list.eq_def] at h
    simp at h
    rcases List.mem_cons.1 hm with rfl | hm2
    · exact h.1
    · exact ih h.2 hm2

theorem build_children_countNL (cs : List FSE)
    (IH : ∀ c ∈ cs, ∀ (pfx : String) (is_last : Bool) (f d : Nat),
      names_nl_free c → countNL pfx = 0 →
      countNL (build_markdown_tree c pfx is_last f d).1 =
        spec_total_files c + spec_total_dirs c)
    (hall : ∀ c ∈ cs, names_nl_free c) :
    ∀ (pfx : String) (f d : Nat), countNL pfx = 0 →
      countNL (build_children cs pfx f d).1 =
        ((visible_entries_list cs).filter (fun x => !x.isDir)).length +
        ((visible_entries_list cs).filter (fun x => x.isDir)).length := by
  induction cs with
  | nil =>
    intro pfx f d hp
    rw [build_children_nil]
    simp [countNL, visible_entries_list]
  | cons c rest ih =>
    intro pfx f d hp
    cases rest with
    | nil =>
      rw [build_children_single]
      rw [IH c (by simp) pfx true f d (hall c (by simp)) hp]
      simp [visible_entries_list_cons, visible_entries_list, spec_total_files, spec_total_dirs]
    | cons c2 rest2 =>
      rw [build_children_cons]
      simp only [countNL_append]
      rw [IH c (by simp) pfx false f d (hall c (by simp)) hp]
      rw [ih (fun x hx => IH x (by simp [hx])) (fun x hx => hall x (by simp [hx])) pfx _ _ hp]
      simp [visible_entries_list_cons, spec_total_files, spec_total_dirs]
      omega

theorem build_countNL : ∀ e : FSE, ∀ (pfx : String) (is_last : Bool) (f d : Nat),
    names_nl_free e → countNL pfx = 0 →
    countNL (build_markdown_tree e pfx is_last f d).1 =
      spec_total_files e + spec_total_dirs e := by
  apply FSE.induction_size
  intro e IH pfx is_last f d hnl hp
  cases e with
  | file n =>
    rw [build_eq_file]
    rw [names_nl_free_file] at hnl
    simp at hnl
    by_cases h : ignore_dirs.contains n
    · rw [if_pos h]
      simp [countNL, spec_total_files, spec_total_dirs,
        visible_entries_eq_nil (show ignore_dirs.contains (FSE.file n).name from h)]
    · rw [if_neg h]
      simp [spec_total_files, spec_total_dirs, visible_entries_file n h, FSE.isDir]
      by_cases hpe : pfx = "" <;>
        simp [hpe, countNL_append, hnl, hp] <;>
        cases is_last <;> simp [countNL]
  | dir n ch =>
    rw [build_eq_dir]
    rw [names_nl_free_dir] at hnl
    simp at hnl
    by_cases h : ignore_dirs.contains n
    · rw [if_pos h]
      simp [countNL, spec_total_files, spec_total_dirs,
        visible_entries_eq_nil (show ignore_dirs.contains (FSE.dir n ch).name from h)]
    · rw [if_neg h]
      rw [countNL_append]
      rw [build_children_countNL _
        (fun c hc => IH c (sizeOf_lt_dir_filter hc n))
        (fun c hc => names_nl_free_list_mem hnl.2 (List.mem_of_mem_filter hc))
        _ f (d + 1)
        (by cases is_last <;> simp [countNL_append, hp] <;> decide)]
      rw [visible_entries_list_filter]
      have hn0 : countNL n = 0 := hnl.1
      have hline : countNL (if pfx = "" then "- " ++ (n ++ "/") ++ "\n"
          else pfx ++ (if is_last then "└── " else "├── ") ++ (n ++ "/") ++ "\n") = 1 := by
        by_cases hpe : pfx = "" <;> cases is_last <;>
          simp [hpe, countNL_append, hn0, hp] <;> decide
      rw [hline]
      simp [spec_total_files, spec_total_dirs, visible_entries_dir n ch h, FSE.isDir,
        List.filter_cons]
      omega

/-! ## Shape of a successful introspection -/

theorem gps_some (env : GitEnv) (r : RepoInfo)
    (h : (get_project_structure env).1 = some r) :
    ∃ out1 out2 u out3 out4 out5,
      env.revParseToplevel = .ok out1 ∧ env.remoteV = .ok out2 ∧
      findOriginUrl (pySplitLines (pyStrip out2)) = .ok u ∧
      env.abbrevRef = .ok out3 ∧ env.statusCmd = .ok out4 ∧ env.logCmd = .ok out5 ∧
      r = ⟨env.cwd, pyStrip out1, u, pyStrip out1, pyStrip out3, pyStrip out4,
        pySplitLines (pyStrip out5),
        (build_markdown_tree env.rootTree "" true 0 0).1,
        ["README", "README.md", "readme", "readme.md"].any
          (fun f => exists_in_root env.rootTree f),
        exists_in_root env.rootTree "Makefile" || exists_in_root env.rootTree "makefile",
        (build_markdown_tree env.rootTree "" true 0 0).2.1,
        (build_markdown_tree env.rootTree "" true 0 0).2.2⟩ := by
  unfold get_project_structure at h
  cases h1 : env.revParseToplevel with
  | error e => rw [h1] at h; simp at h
  | ok out1 =>
    rw [h1] at h
    dsimp only at h
    cases h2 : env.remoteV with
    | error e => rw [h2] at h; simp at h
    | ok out2 =>
      rw [h2] at h
      dsimp only at h
      cases hu : findOriginUrl (pySplitLines (pyStrip out2)) with
      | error msg => rw [hu] at h; simp at h
      | ok u =>
        rw [hu] at h
        dsimp only at h
        cases h3 : env.abbrevRef with
        | error e => rw [h3] at h; simp at h
        | ok out3 =>
          rw [h3] at h
          dsimp only at h
          cases h4 : env.statusCmd with
          | error e => rw [h4] at h; simp at h
          | ok out4 =>
            rw [h4] at h
            dsimp only at h
            cases h5 : env.logCmd with
            | error e => rw [h5] at h; simp at h
            | ok out5 =>
              rw [h5] at h
              dsimp only at h
              simp at h
              refine ⟨out1, out2, u, out3, out4, out5, rfl, rfl, hu, rfl, rfl, rfl, ?_⟩
              rw [← h]
              simp [List.any]

theorem gps_xml_map (env : GitEnv) :
    get_project_structure_xml env = Option.map class_to_xml (get_project_structure env).1 := by
  unfold get_project_structure_xml
  cases (get_project_structure env).1 <;> simp

theorem gps_none_iff (env : GitEnv) :
    ((get_project_structure env).1 = none ↔ introspection_failed env = true) ∧
    (introspection_failed env = true → (get_project_structure env).2 ≠ []) := by
  unfold get_project_structure introspection_failed origin_parse_failed cmd_failed
  cases h1 : env.revParseToplevel with
  | error e => simp
  | ok o1 =>
    cases h2 : env.remoteV with
    | error e => simp
    | ok o2 =>
      dsimp only
      cases hu : findOriginUrl (pySplitLines (pyStrip o2)) with
      | error msg => simp
      | ok u =>
        cases h3 : env.abbrevRef with
        | error e => simp
        | ok o3 =>
          cases h4 : env.statusCmd with
          | error e => simp
          | ok o4 =>
            cases h5 : env.logCmd with
            | error e => simp
            | ok o5 => simp

/-! ## XML construction lemmas -/

theorem build_xml_str (name s : String) :
    build_xml name (.str s) = .elem name [.text s] := by
  rw [build_xml.eq_def]

theorem build_xml_int (name : String) (n : Nat) :
    build_xml name (.int n) = .elem name [.text (toString n)] := by
  rw [build_xml.eq_def]

theorem build_xml_bool (name : String) (b : Bool) :
    build_xml name (.bool b) = .elem name [.text (if b then "true" else "false")] := by
  rw [build_xml.eq_def]

theorem build_xml_list_eq (name : String) (items : List PyValue) :
    build_xml name (.list items) = .elem name (build_xml_items items) := by
  rw [build_xml.eq_def]

theorem build_xml_items_map_str (l : List String) :
    build_xml_items (l.map PyValue.str) =
      l.map (fun s => XmlNode.elem "item" [.text s]) := by
  induction l with
  | nil => rw [build_xml_items.eq_def]; rfl
  | cons a l ih =>
    rw [show (a :: l).map PyValue.str = PyValue.str a :: l.map PyValue.str from rfl]
    rw [build_xml_items.eq_def]
    simp only [build_xml_str, ih]
    rfl

theorem exists_in_root_eq (root : FSE) (f : String) :
    exists_in_root root f = (root_children root).any (fun c => c.name == f) := by
  cases root <;> simp [exists_in_root, root_children]

/-! ## Concrete evaluations -/

theorem build_tree_ok : build_markdown_tree tree_ok "" true 0 0 =
    ("- popo/\n    ├── main.py\n    ├── utils/\n    │   ├── a.py\n    │   └── b.py\n    └── README.md\n",
     4, 2) := by
  simp [tree_ok, build_eq_dir, build_eq_file, build_children_cons, build_children_single,
    build_children_nil, FSE.name, ignore_dirs]

theorem gps_env_ok : (get_project_structure env_ok).1 = some repo_ok := by
  unfold get_project_structure
  rw [show env_ok.rootTree = tree_ok from rfl, build_tree_ok]
  decide

theorem build_tree_nl : build_markdown_tree tree_nl "" true 0 0 =
    ("- r/\n    └── a\nb\n", 1, 1) := by
  simp [tree_nl, build_eq_dir, build_eq_file, build_children_single, build_children_nil,
    FSE.name, ignore_dirs]

theorem gps_env_nl : (get_project_structure env_nl).1 = some repo_nl := by
  unfold get_project_structure
  rw [show env_nl.rootTree = tree_nl from rfl, build_tree_nl]
  decide

theorem names_nl_free_tree_ok : names_nl_free tree_ok = true := by
  simp [tree_ok, names_nl_free, names_nl_free_list]
  decide

theorem build_tree_dirreadme : build_markdown_tree tree_dirreadme "" true 0 0 =
    ("- r/\n    └── README/\n", 0, 2) := by
  simp [tree_dirreadme, build_eq_dir, build_eq_file, build_children_single,
    build_children_nil, FSE.name, ignore_dirs]

theorem gps_env_dirreadme :
    (get_project_structure env_dirreadme).1 = some repo_dirreadme := by
  unfold get_project_structure
  rw [show env_dirreadme.rootTree = tree_dirreadme from rfl, build_tree_dirreadme]
  decide

/-! ## The claims -/

/-- C1 fails as stated: the ignore-set check of `build_markdown_tree` fires
on the root node itself, so for a repository root directory named in the
ignore set (a git toplevel really can be called `node_modules`) the function
returns the empty string instead of rendering the root line
`- node_modules/` the claim requires. -/
theorem claim_C1_counterexample :
    (build_markdown_tree (FSE.dir "node_modules" [FSE.file "a.py"]) "" true 0 0).1 = "" ∧
    spec_render_root (FSE.dir "node_modules" [FSE.file "a.py"]) =
      "- node_modules/\n    └── a.py\n" ∧
    ¬ (build_markdown_tree (FSE.dir "node_modules" [FSE.file "a.py"]) "" true 0 0).1 =
      spec_render_root (FSE.dir "node_modules" [FSE.file "a.py"]) := by
  have hb : (build_markdown_tree (FSE.dir "node_modules" [FSE.file "a.py"]) "" true 0 0).1 =
      "" := by
    rw [build_eq_dir,
      if_pos (show ignore_dirs.contains "node_modules" = true from by decide)]
  have hs : spec_render_root (FSE.dir "node_modules" [FSE.file "a.py"]) =
      "- node_modules/\n    └── a.py\n" := by
    simp only [spec_render_root]
    rw [show ([FSE.file "a.py"].filter (fun c => !ignore_dirs.contains c.name)) =
      [FSE.file "a.py"] from rfl]
    rw [spec_render_children.eq_def]
    dsimp only
    rw [spec_render_file]
    simp [spec_line, spec_child_pfx, FSE.name, FSE.isDir]
  exact ⟨hb, hs, by rw [hb, hs]; decide⟩

/-- C1, amended: for every directory tree rooted at the repository root
*whose root directory's name is not in the ignore set*,
`build_markdown_tree` renders the root as the line `- <name>/`, renders every
non-root entry as its inherited prefix, then `└── ` if it is the last
non-ignored child of its parent and `├── ` otherwise, then its name with a
trailing `/` exactly when it is a directory; children inherit the node's
prefix extended with four spaces when the node is last and `│   ` otherwise.
`spec_render_root` transcribes exactly that wording. -/
theorem claim_C1 (n : String) (ch : List FSE) (f d : Nat)
    (h : ¬ ignore_dirs.contains n) :
    (build_markdown_tree (.dir n ch) "" true f d).1 = spec_render_root (.dir n ch) :=
  build_render_root n ch f d h

theorem claim_C1_witness :
    (build_markdown_tree (.dir "popo" [.file "main.py", .dir ".git" [.file "HEAD"],
        .dir "utils" [.file "a.py", .file "b.py"], .file "README.md"]) "" true 0 0).1 =
      spec_render_root (.dir "popo" [.file "main.py", .dir ".git" [.file "HEAD"],
        .dir "utils" [.file "a.py", .file "b.py"], .file "README.md"]) :=
  claim_C1 "popo" [.file "main.py", .dir ".git" [.file "HEAD"],
    .dir "utils" [.file "a.py", .file "b.py"], .file "README.md"] 0 0 (by decide)

/-- C2: `build_markdown_tree` is a depth-first pre-order traversal: a
serialized directory's own line comes first, followed by the serializations
of its non-ignored children in iteration order, each child's serialized
subtree contiguous in the output string. -/
theorem claim_C2 (n : String) (ch : List FSE) (pfx : String) (is_last : Bool)
    (f d : Nat) (h : ¬ ignore_dirs.contains n) :
    (build_markdown_tree (.dir n ch) pfx is_last f d).1 =
      (if pfx = "" then "- " ++ (n ++ "/") ++ "\n"
       else pfx ++ (if is_last then "└── " else "├── ") ++ (n ++ "/") ++ "\n") ++
      str_concat (child_render_list (ch.filter (fun c => !ignore_dirs.contains c.name))
        (if is_last then pfx ++ "    " else pfx ++ "│   ") f (d + 1)) := by
  have h' : ¬ ignore_dirs.contains n = true := h
  rw [build_eq_dir, if_neg h', build_children_join]

theorem claim_C2_witness :
    (build_markdown_tree (.dir "utils" [.file "a.py", .file "b.py"]) "    " false 1 1).1 =
      (if "    " = "" then "- " ++ ("utils" ++ "/") ++ "\n"
       else "    " ++ (if false then "└── " else "├── ") ++ ("utils" ++ "/") ++ "\n") ++
      str_concat (child_render_list
        ([FSE.file "a.py", FSE.file "b.py"].filter (fun c => !ignore_dirs.contains c.name))
        (if false then "    " ++ "    " else "    " ++ "│   ") 1 (1 + 1)) :=
  claim_C2 "utils" [.file "a.py", .file "b.py"] "    " false 1 1 (by decide)

/-- C3: on success, `totalFiles` is the number of non-directory entries and
`totalDirectories` the number of directories (the root included) visited by
the traversal, entries named in the ignore set being excluded together with
their entire subtrees from both counts. -/
theorem claim_C3 (env : GitEnv) (r : RepoInfo)
    (h : (get_project_structure env).1 = some r) :
    r.totalFiles = spec_total_files env.rootTree ∧
    r.totalDirectories = spec_total_dirs env.rootTree := by
  obtain ⟨o1, o2, u, o3, o4, o5, h1, h2, hu, h3, h4, h5, rfl⟩ := gps_some env r h
  have hc := build_counts env.rootTree "" true 0 0
  constructor
  · show (build_markdown_tree env.rootTree "" true 0 0).2.1 = _
    rw [hc]
    simp
  · show (build_markdown_tree env.rootTree "" true 0 0).2.2 = _
    rw [hc]
    simp

theorem claim_C3_witness :
    (get_project_structure env_ok).1 = some repo_ok ∧
    (repo_ok.totalFiles = spec_total_files env_ok.rootTree ∧
     repo_ok.totalDirectories = spec_total_dirs env_ok.rootTree) :=
  ⟨gps_env_ok, claim_C3 env_ok repo_ok gps_env_ok⟩

/-- C4: when a git command exits nonzero or the introspection raises,
`get_project_structure` returns `None` and prints a message — and only then;
`get_project_structure_xml` is `None` in exactly those cases and the XML
string otherwise. -/
theorem claim_C4 (env : GitEnv) :
    ((get_project_structure env).1 = none ↔ introspection_failed env = true) ∧
    (introspection_failed env = true → (get_project_structure env).2 ≠ []) ∧
    get_project_structure_xml env = Option.map class_to_xml (get_project_structure env).1 :=
  ⟨(gps_none_iff env).1, (gps_none_iff env).2, gps_xml_map env⟩

theorem claim_C4_witness :
    (get_project_structure env_fail).1 = none ∧ (get_project_structure env_fail).2 ≠ [] :=
  ⟨(claim_C4 env_fail).1.mpr (by decide), (claim_C4 env_fail).2.1 (by decide)⟩

/-- C5: on success the XML document's root element is tagged `repoinfo` and
has exactly one child per `RepoInfo` field, tagged with the lowercased field
name; booleans render as `true`/`false` and `recentCommit` renders as one
`<item>` per entry, in order. -/
theorem claim_C5 (env : GitEnv) (r : RepoInfo)
    (h : (get_project_structure env).1 = some r) :
    get_project_structure_xml env = some (class_to_xml r) ∧
    class_to_xml_root r = .elem "repoinfo"
      [.elem "currentdirectory" [.text r.currentDirectory],
       .elem "rootpath" [.text r.rootPath],
       .elem "repourl" [.text r.repoURL],
       .elem "repopath" [.text r.repoPath],
       .elem "branch" [.text r.Branch],
       .elem "status" [.text r.status],
       .elem "recentcommit" (r.recentCommit.map (fun item => .elem "item" [.text item])),
       .elem "directorystructure" [.text r.directoryStructure],
       .elem "hasreadme" [.text (if r.hasReadme then "true" else "false")],
       .elem "hasmakefile" [.text (if r.hasMakefile then "true" else "false")],
       .elem "totalfiles" [.text (toString r.totalFiles)],
       .elem "totaldirectories" [.text (toString r.totalDirectories)]] := by
  constructor
  · unfold get_project_structure_xml
    rw [h]
  · unfold class_to_xml_root repoInfo_attrs
    simp only [List.map, build_xml_str, build_xml_int, build_xml_bool, build_xml_list_eq,
      build_xml_items_map_str]
    rw [show pyLower "RepoInfo" = "repoinfo" from by decide,
      show safe_name "currentDirectory" = "currentdirectory" from by decide,
      show safe_name "rootPath" = "rootpath" from by decide,
      show safe_name "repoURL" = "repourl" from by decide,
      show safe_name "repoPath" = "repopath" from by decide,
      show safe_name "Branch" = "branch" from by decide,
      show safe_name "status" = "status" from by decide,
      show safe_name "recentCommit" = "recentcommit" from by decide,
      show safe_name "directoryStructure" = "directorystructure" from by decide,
      show safe_name "hasReadme" = "hasreadme" from by decide,
      show safe_name "hasMakefile" = "hasmakefile" from by decide,
      show safe_name "totalFiles" = "totalfiles" from by decide,
      show safe_name "totalDirectories" = "totaldirectories" from by decide]

theorem claim_C5_witness :
    get_project_structure_xml env_ok = some (class_to_xml repo_ok) ∧
    class_to_xml_root repo_ok = .elem "repoinfo"
      [.elem "currentdirectory" [.text repo_ok.currentDirectory],
       .elem "rootpath" [.text repo_ok.rootPath],
       .elem "repourl" [.text repo_ok.repoURL],
       .elem "repopath" [.text repo_ok.repoPath],
       .elem "branch" [.text repo_ok.Branch],
       .elem "status" [.text repo_ok.status],
       .elem "recentcommit" (repo_ok.recentCommit.map (fun item => .elem "item" [.text item])),
       .elem "directorystructure" [.text repo_ok.directoryStructure],
       .elem "hasreadme" [.text (if repo_ok.hasReadme then "true" else "false")],
       .elem "hasmakefile" [.text (if repo_ok.hasMakefile then "true" else "false")],
       .elem "totalfiles" [.text (toString repo_ok.totalFiles)],
       .elem "totaldirectories" [.text (toString repo_ok.totalDirectories)]] :=
  claim_C5 env_ok repo_ok gps_env_ok

/-- C6 fails as stated: a file name may itself contain a newline, and then
`directoryStructure` has more newline-terminated lines than
`totalFiles + totalDirectories`. -/
theorem claim_C6_counterexample :
    (get_project_structure env_nl).1 = some repo_nl ∧
    ¬ ignore_dirs.contains env_nl.rootTree.name = true ∧
    ¬ countNL repo_nl.directoryStructure = repo_nl.totalFiles + repo_nl.totalDirectories :=
  ⟨gps_env_nl, by decide, by decide⟩

/-- C6, amended: additionally assuming no entry name in the tree contains a
newline character, every visited entry contributes exactly one
newline-terminated line, so the line count of `directoryStructure` equals
`totalFiles + totalDirectories`. -/
theorem claim_C6 (env : GitEnv) (r : RepoInfo)
    (h : (get_project_structure env).1 = some r)
    (hroot : ¬ ignore_dirs.contains env.rootTree.name = true)
    (hnl : names_nl_free env.rootTree = true) :
    countNL r.directoryStructure = r.totalFiles + r.totalDirectories := by
  obtain ⟨o1, o2, u, o3, o4, o5, h1, h2, hu, h3, h4, h5, rfl⟩ := gps_some env r h
  show countNL (build_markdown_tree env.rootTree "" true 0 0).1 =
    (build_markdown_tree env.rootTree "" true 0 0).2.1 +
    (build_markdown_tree env.rootTree "" true 0 0).2.2
  rw [build_countNL env.rootTree "" true 0 0 hnl (by decide)]
  have hc := build_counts env.rootTree "" true 0 0
  rw [hc]
  simp

theorem claim_C6_witness :
    countNL repo_ok.directoryStructure = repo_ok.totalFiles + repo_ok.totalDirectories :=
  claim_C6 env_ok repo_ok gps_env_ok (by decide) names_nl_free_tree_ok

/-- C7: the agent is constructed on the `code_sys` prompt template
instantiated with the repository XML, with the (empty) tool list, the LLM
client object it imports and the name `popo`. -/
theorem claim_C7 (env : AgentEnv) :
    (create_agent env).prompt =
      env.load_prompt_template "code_sys" (get_project_structure_xml env.gitEnv) ∧
    (create_agent env).tools = [] ∧
    (create_agent env).model = env.llm_model ∧
    (create_agent env).name = "popo" :=
  ⟨rfl, rfl, rfl, rfl⟩

/-- C8 fails as stated: `Path.exists()` is also true for a directory, so a
*directory* named `README` in the root makes `hasReadme` true although no
*file* with any of the four names exists. -/
theorem claim_C8_counterexample :
    (get_project_structure env_dirreadme).1 = some repo_dirreadme ∧
    repo_dirreadme.hasReadme = true ∧
    ((root_children env_dirreadme.rootTree).filter
      (fun c => !c.isDir && (c.name == "README" || c.name == "README.md" ||
        c.name == "readme" || c.name == "readme.md"))).length = 0 :=
  ⟨gps_env_dirreadme, by decide, by decide⟩

/-- C8, amended: `hasReadme` is true iff an *entry* (file or directory)
named exactly `README`, `README.md`, `readme` or `readme.md` exists directly
in the repository root, and `hasMakefile` likewise for `Makefile` or
`makefile`; any other spelling yields false. -/
theorem claim_C8 (env : GitEnv) (r : RepoInfo)
    (h : (get_project_structure env).1 = some r) :
    (r.hasReadme = true ↔ (root_children env.rootTree).any
      (fun c => c.name == "README" || c.name == "README.md" ||
        c.name == "readme" || c.name == "readme.md") = true) ∧
    (r.hasMakefile = true ↔ (root_children env.rootTree).any
      (fun c => c.name == "Makefile" || c.name == "makefile") = true) := by
  obtain ⟨o1, o2, u, o3, o4, o5, h1, h2, hu, h3, h4, h5, rfl⟩ := gps_some env r h
  constructor
  · show (["README", "README.md", "readme", "readme.md"].any
      (fun f => exists_in_root env.rootTree f) = true ↔ _)
    simp only [exists_in_root_eq, List.any_eq_true, List.mem_cons, List.mem_singleton]
    constructor
    · rintro ⟨f, hf, c, hc, hcf⟩
      refine ⟨c, hc, ?_⟩
      rcases hf with rfl | rfl | rfl | rfl | h0
      · simp [hcf]
      · simp [hcf]
      · simp [hcf]
      · simp [hcf]
      · cases h0
    · rintro ⟨c, hc, hcf⟩
      simp only [Bool.or_eq_true] at hcf
      rcases hcf with ((h0 | h0) | h0) | h0
      · exact ⟨"README", by simp, c, hc, h0⟩
      · exact ⟨"README.md", by simp, c, hc, h0⟩
      · exact ⟨"readme", by simp, c, hc, h0⟩
      · exact ⟨"readme.md", by simp, c, hc, h0⟩
  · show (exists_in_root env.rootTree "Makefile" ||
      exists_in_root env.rootTree "makefile") = true ↔ _
    simp only [exists_in_root_eq, List.any_eq_true, Bool.or_eq_true]
    constructor
    · rintro (⟨c, hc, hcf⟩ | ⟨c, hc, hcf⟩)
      · exact ⟨c, hc, by simp [hcf]⟩
      · exact ⟨c, hc, by simp [hcf]⟩
    · rintro ⟨c, hc, h0 | h0⟩
      · exact Or.inl ⟨c, hc, h0⟩
      · exact Or.inr ⟨c, hc, h0⟩

theorem claim_C8_witness :
    ((repo_ok.hasReadme = true ↔ (root_children env_ok.rootTree).any
      (fun c => c.name == "README" || c.name == "README.md" ||
        c.name == "readme" || c.name == "readme.md") = true) ∧
    (repo_ok.hasMakefile = true ↔ (root_children env_ok.rootTree).any
      (fun c => c.name == "Makefile" || c.name == "makefile") = true)) :=
  claim_C8 env_ok repo_ok gps_env_ok

/-- C9: on success `rootPath` and `repoPath` coincide — both are the
stripped output of `git rev-parse --show-toplevel`. -/
theorem claim_C9 (env : GitEnv) (r : RepoInfo)
    (h : (get_project_structure env).1 = some r) :
    r.rootPath = r.repoPath ∧
    Except.map pyStrip env.revParseToplevel = .ok r.rootPath := by
  obtain ⟨o1, o2, u, o3, o4, o5, h1, h2, hu, h3, h4, h5, rfl⟩ := gps_some env r h
  exact ⟨rfl, by rw [h1]; rfl⟩

theorem claim_C9_witness :
    repo_ok.rootPath = repo_ok.repoPath ∧
    Except.map pyStrip env_ok.revParseToplevel = .ok repo_ok.rootPath :=
  claim_C9 env_ok repo_ok gps_env_ok

/-- C10: `query` forwards the question to the agent as a single user-role
message and prints exactly the streamed chunks, in stream order. -/
theorem claim_C10 (env : AgentEnv) (question : String) :
    query env question = (create_agent env).stream [⟨"user", question⟩] :=
  rfl
